import Mathlib

/-!
Shallow embedding of `src/backup_phone.py` (an ADB directory-backup tool)
and proofs about its reconciliation, verification, directory-creation,
pull-classification and orchestration logic.

Modelling conventions:
* A relative path (canonical linux form, slash separated in the source) is
  modelled as its list of components, `RelPath := List String`.  The
  source sorts directory paths as strings; sorting component lists
  lexicographically keeps the one property the code relies on (an
  ancestor sorts before any of its descendants) and is used for
  `create_all_directories`.
* The remote (android) side is read-only in the program, so remote
  queries (`get_src_sha1sum`, `get_src_file_size`, the data that `adb
  pull` writes) are oracles: plain functions supplied as parameters.
* The local destination tree is an explicit state `LFS`: an association
  list of files (with size and digest) plus a list of directories.
* Fallible code (`raise TypeError` etc.) returns `Except`.
-/

deriving instance DecidableEq for Except

namespace BackupPhone

/-- A relative path, as its list of `/`-separated components. -/
abbrev RelPath := List String

/-! ## Reconciler (`get_missing_and_existing_files`, lines 173-193) -/

/-- One side's recursive listing: the sets of files and of directories,
as produced by `get_src_all_files_and_dirs` / `get_dst_all_files_and_dirs`
and converted to sets at lines 178-179. -/
structure TreeSnapshot where
  files : Finset RelPath
  dirs : Finset RelPath
deriving DecidableEq

/-- The four sets returned by `get_missing_and_existing_files` (line 193). -/
structure ReconcileOut where
  missing_files : Finset RelPath
  existing_files : Finset RelPath
  missing_dirs : Finset RelPath
  existing_dirs : Finset RelPath
deriving DecidableEq

/-- The `bad_type_items` expression of lines 187-188:
`(existing_files ∩ missing_dirs) ∪ (missing_files ∩ existing_dirs)`. -/
def bad_type_items (r l : TreeSnapshot) : Finset RelPath :=
  ((r.files ∩ l.files) ∩ (r.dirs \ l.dirs)) ∪ ((r.files \ l.files) ∩ (r.dirs ∩ l.dirs))

/-- Lines 173-193: set differences and intersections of the two
snapshots; raises `TypeError` (modelled as `Except.error` carrying the
offending set) when `bad_type_items` is non-empty. -/
def get_missing_and_existing_files (r l : TreeSnapshot) :
    Except (Finset RelPath) ReconcileOut :=
  let missing_files := r.files \ l.files
  let existing_files := r.files ∩ l.files
  let missing_dirs := r.dirs \ l.dirs
  let existing_dirs := r.dirs ∩ l.dirs
  let bad := (existing_files ∩ missing_dirs) ∪ (missing_files ∩ existing_dirs)
  if bad.Nonempty then Except.error bad
  else Except.ok ⟨missing_files, existing_files, missing_dirs, existing_dirs⟩

/-! ## Verifier (`verify`, lines 196-212) -/

/-- Lines 196-212: keep the existing files whose source/destination
sha1sums differ or whose sizes differ.  The dictionaries built in the
source are memoisation only; the returned list is the filter at
lines 209-210. -/
def verify (src_sha1 dst_sha1 : RelPath → String) (src_size dst_size : RelPath → Nat)
    (existing_files : List RelPath) : List RelPath :=
  existing_files.filter
    (fun f => decide (src_sha1 f ≠ dst_sha1 f ∨ src_size f ≠ dst_size f))

/-! ## Local filesystem state -/

/-- Size and sha1 digest of one local file (the data `os.path.getsize`
and `sha1sum` would report). -/
structure FileData where
  size : Nat
  digest : String
deriving DecidableEq

/-- The destination tree under `dst_path`: which relative paths are
regular files (with their data) and which are directories.  The root
itself always exists (`main` validates `os.path.isdir(dst_path)` at
line 244), so the empty relative path counts as a directory. -/
structure LFS where
  files : List (RelPath × FileData)
  dirs : List RelPath
deriving DecidableEq

/-- First-match association lookup in the file list. -/
def lookupFile : List (RelPath × FileData) → RelPath → Option FileData
  | [], _ => none
  | (q, fd) :: rest, p => if q = p then some fd else lookupFile rest p

/-- `os.path.isfile` on the destination. -/
def LFS.isFile (fs : LFS) (p : RelPath) : Bool :=
  (lookupFile fs.files p).isSome

/-- `os.path.isdir` on the destination (the root `[]` always exists). -/
def LFS.isDir (fs : LFS) (p : RelPath) : Bool :=
  p.isEmpty || decide (p ∈ fs.dirs)

/-- `os.path.exists` on the destination. -/
def LFS.pathExists (fs : LFS) (p : RelPath) : Bool :=
  fs.isFile p || fs.isDir p

/-- `get_dst_sha1sum` (line 66): digest of a local file.  Only meaningful
when the file exists; the source would raise otherwise. -/
def LFS.localDigest (fs : LFS) (p : RelPath) : String :=
  ((lookupFile fs.files p).map FileData.digest).getD ""

/-- `os.path.getsize` of a local file, under the same proviso. -/
def LFS.localSize (fs : LFS) (p : RelPath) : Nat :=
  ((lookupFile fs.files p).map FileData.size).getD 0

/-- Events a run emits, in order, so that phase ordering (directories
created before any pull, reporting before termination) can be stated. -/
inductive PullStatus where
  | success
  | not_pulled
  | wrong_size
  | wrong_hash
deriving DecidableEq

inductive Event where
  | mkdir (d : RelPath)
  | reportFaulty (bad : List RelPath)
  | deleteFile (f : RelPath)
  | pullAttempt (f : RelPath)
  | pullError (f : RelPath) (st : PullStatus)
deriving DecidableEq

/-! ## Directory creation (`create_all_directories`, lines 72-82) -/

/-- The non-empty component prefixes of a path: the directories
`os.makedirs` brings into existence when creating `d` (intermediate
directories included). -/
def ancestors (d : RelPath) : List RelPath :=
  (List.range d.length).map (fun k => d.take (k + 1))

/-- `os.makedirs(full_path, exist_ok=True)` (line 80): `d` and all its
intermediate directories now exist.  (The source's `makedirs` can itself
fail when an ancestor exists as a file; as in the source, only the
directory `d` itself is checked against files, at line 81.) -/
def makedirs (fs : LFS) (d : RelPath) : LFS :=
  { fs with dirs := fs.dirs ++ ancestors d }

/-- Lexicographic comparison of component lists, mirroring the string
sort of `dirs.sort()` (line 76): an ancestor always sorts before its
descendants, which is the property the loop relies on. -/
def pathLe : RelPath → RelPath → Bool
  | [], _ => true
  | _ :: _, [] => false
  | a :: as, b :: bs => if a < b then true else if a = b then pathLe as bs else false

/-- `pathLe` as a relation, for sorting. -/
def pathLeP (a b : RelPath) : Prop := pathLe a b = true

instance : DecidableRel pathLeP := fun a b => inferInstanceAs (Decidable (pathLe a b = true))

/-- `dirs.sort()` (line 76): a stable sort by `pathLe`.  (`pathLe` is
antisymmetric, so the sorted list is unique and the choice of sorting
algorithm is immaterial.) -/
def sortPaths (l : List RelPath) : List RelPath := List.insertionSort pathLeP l

/-- The loop body of lines 77-82 over an already-sorted list, also
recording a `mkdir` event for each `makedirs` call; the `TypeError` of
line 82 is `Except.error` carrying the offending path. -/
def create_dirs_go (fs : LFS) : List RelPath → Except RelPath (LFS × List Event)
  | [] => Except.ok (fs, [])
  | d :: rest =>
    if ¬ fs.pathExists d then
      match create_dirs_go (makedirs fs d) rest with
      | Except.error e => Except.error e
      | Except.ok (fs', evs) => Except.ok (fs', Event.mkdir d :: evs)
    else if fs.isDir d then create_dirs_go fs rest
    else Except.error d

/-- Lines 72-82: sort the directory list, then create each missing one. -/
def create_all_directories (fs : LFS) (dirs : List RelPath) :
    Except RelPath (LFS × List Event) :=
  create_dirs_go fs (sortPaths dirs)

/-- `delete_files` (lines 85-90): remove the listed files. -/
def delete_files (fs : LFS) (files : List RelPath) : LFS :=
  { fs with files := fs.files.filter (fun pr => decide (pr.1 ∉ files)) }

/-! ## Puller (`pull_file`, lines 145-168, and the loop of lines 303-322) -/

/-- Remote-side oracles and the user's answers to the interactive
prompts.  `transfer f` is what the `adb pull` of line 152 leaves at the
local path for `f`: `none` when nothing is written (the pre-existing
state, if any, persists), `some fd` when a file with data `fd` is
written (overwriting any previous file). -/
structure Oracles where
  srcDigest : RelPath → String
  srcSize : RelPath → Nat
  transfer : RelPath → Option FileData
  userDelete : Bool
  userOverride : Bool

/-- The local state after the `adb pull` of line 152. -/
def applyTransfer (fs : LFS) (f : RelPath) : Option FileData → LFS
  | none => fs
  | some fd => { fs with files := (f, fd) :: fs.files.filter (fun pr => decide (pr.1 ≠ f)) }

/-- The classification of lines 154-168, performed on the post-transfer
state: `not_pulled` when nothing exists at the path, the `raise` of
lines 156-159 (modelled as `Except.error`) when the path exists but is
not a file, then the size check, then the digest check. -/
def pull_file (srcSize : Nat) (srcDigest : String) (fs : LFS) (f : RelPath) :
    Except RelPath PullStatus :=
  if ¬ fs.isFile f then
    if fs.pathExists f then Except.error f else Except.ok PullStatus.not_pulled
  else if srcSize ≠ fs.localSize f then Except.ok PullStatus.wrong_size
  else if srcDigest ≠ fs.localDigest f then Except.ok PullStatus.wrong_hash
  else Except.ok PullStatus.success

/-- One iteration of the pull loop (lines 313-322): transfer, classify,
report a non-success status, and delete the local artifact for every
non-success status other than `not_pulled`. -/
def pull_step (o : Oracles) (fs : LFS) (f : RelPath) :
    Except RelPath (PullStatus × LFS × List Event) :=
  let fs1 := applyTransfer fs f (o.transfer f)
  match pull_file (o.srcSize f) (o.srcDigest f) fs1 f with
  | Except.error e => Except.error e
  | Except.ok st =>
    if st = PullStatus.success then
      Except.ok (st, fs1, [Event.pullAttempt f])
    else if st = PullStatus.not_pulled then
      Except.ok (st, fs1, [Event.pullAttempt f, Event.pullError f st])
    else
      Except.ok (st, delete_files fs1 [f],
        [Event.pullAttempt f, Event.pullError f st, Event.deleteFile f])

/-- The pull loop over `missing_files`, accumulating the `failed_files`
list of lines 304, 319. -/
def pull_loop (o : Oracles) (fs : LFS) : List RelPath →
    Except RelPath (LFS × List Event × List RelPath)
  | [] => Except.ok (fs, [], [])
  | f :: rest =>
    match pull_step o fs f with
    | Except.error e => Except.error e
    | Except.ok (st, fs1, evs) =>
      match pull_loop o fs1 rest with
      | Except.error e => Except.error e
      | Except.ok (fs2, evs2, failed) =>
        Except.ok (fs2, evs ++ evs2,
          (if st ≠ PullStatus.success then [f] else []) ++ failed)

/-! ## Orchestrator (`main` after reconciliation, lines 277-324) -/

/-- The command-line flags that drive the orchestration. -/
structure Args where
  override : Bool
  verify : Bool
  auto : Bool
  yes : Bool
deriving DecidableEq

/-- Result of the verification block (lines 283-292): its events, the
local state after the optional deletion, and the updated
`missing_files` / `existing_files` lists. -/
structure VerifyPhaseOut where
  trace : List Event
  fs : LFS
  missing : List RelPath
  existing : List RelPath
deriving DecidableEq

/-- Lines 283-292: compute the faulty files, report them, delete them
only when the user (or `--yes`) approves, then unconditionally move them
from the existing to the missing list.  (`list(set(a) - set(b))` at
line 292 is modelled as a filter; only its set of members matters.) -/
def verify_phase (o : Oracles) (args : Args) (fs : LFS)
    (missing existing : List RelPath) : VerifyPhaseOut :=
  let bad := verify o.srcDigest fs.localDigest o.srcSize fs.localSize existing
  let doDelete := (!bad.isEmpty) && (args.yes || o.userDelete)
  { trace := Event.reportFaulty bad :: (if doDelete then bad.map Event.deleteFile else [])
    fs := if doDelete then delete_files fs bad else fs
    missing := missing ++ bad
    existing := existing.filter (fun f => decide (f ∉ bad)) }

/-- The final run summary: the event trace, the final local state, the
`failed_files` list, whether the pull section was reached (i.e. the
`return` of line 295 was not taken), the list handed to the pull loop,
the existing list after the (optional) verification phase, and the local
state on entry to the pull section. -/
structure RunResult where
  trace : List Event
  fs : LFS
  failed : List RelPath
  reachedPull : Bool
  pullList : List RelPath
  existingAfter : List RelPath
  fsBeforePull : LFS
deriving DecidableEq

/-- Lines 297-322: the optional override (extending the pull list by the
existing files, gated on confirmation) followed by the pull loop. -/
def override_and_pull (args : Args) (o : Oracles) (fs : LFS) (pre : List Event)
    (missing existing : List RelPath) : Except RelPath RunResult :=
  let missing' :=
    if args.override && (args.yes || o.userOverride) then missing ++ existing else missing
  match pull_loop o fs missing' with
  | Except.error e => Except.error e
  | Except.ok (fs2, evs2, failed) =>
    Except.ok ⟨pre ++ evs2, fs2, failed, true, missing', existing, fs⟩

/-- `main` from line 278 on, after the missing/existing lists have been
computed: print the missing entries, create all missing directories
(line 280), optionally verify and repair (lines 283-295, returning early
when `--verify` is set), optionally override, then pull. -/
def main_after_reconcile (args : Args) (o : Oracles) (fs : LFS)
    (missing_files existing_files missing_dirs : List RelPath) :
    Except RelPath RunResult :=
  match create_all_directories fs missing_dirs with
  | Except.error e => Except.error e
  | Except.ok (fs1, evs1) =>
    if args.verify || args.auto then
      let vp := verify_phase o args fs1 missing_files existing_files
      if args.verify then
        Except.ok ⟨evs1 ++ vp.trace, vp.fs, [], false, [], vp.existing, vp.fs⟩
      else
        override_and_pull args o vp.fs (evs1 ++ vp.trace) vp.missing vp.existing
    else
      override_and_pull args o fs1 evs1 missing_files existing_files

/-! ## Single-file mode (`main`, lines 258-271) -/

/-- Lines 258-271: when the remote root is itself a regular file, the
run degenerates to a one-entry comparison on its basename: existing when
present locally as a file, a `TypeError` (modelled as `Except.error`)
when present locally as a directory, missing otherwise.  All four lists
start empty and the directory lists stay empty. -/
def single_file_reconcile (filename : RelPath) (fs : LFS) :
    Except RelPath (List RelPath × List RelPath) :=
  if fs.pathExists filename then
    if ¬ fs.isFile filename then Except.error filename
    else Except.ok ([], [filename])
  else Except.ok ([filename], [])

/-! ## Reconciler theorems -/

/-- Every offending path of `bad_type_items` is listed as both a file and
a directory on the REMOTE side: the check can only ever fire when the
remote listing itself is contradictory, never for a cross-side kind
mismatch. -/
theorem bad_type_items_subset (r l : TreeSnapshot) :
    bad_type_items r l ⊆ r.files ∩ r.dirs := by
  intro p hp
  simp only [bad_type_items, Finset.mem_union, Finset.mem_inter, Finset.mem_sdiff] at hp ⊢
  tauto

/-- C3: the reconciler returns `missingFiles = R.files − L.files`,
`existingFiles = R.files ∩ L.files` (same for dirs), so the two file
sets partition `R.files` and the two dir sets partition `R.dirs`. -/
theorem C3_reconcile_set_algebra (r l : TreeSnapshot) (out : ReconcileOut)
    (h : get_missing_and_existing_files r l = Except.ok out) :
    out.missing_files = r.files \ l.files ∧
    out.existing_files = r.files ∩ l.files ∧
    out.missing_dirs = r.dirs \ l.dirs ∧
    out.existing_dirs = r.dirs ∩ l.dirs ∧
    out.missing_files ∪ out.existing_files = r.files ∧
    out.missing_files ∩ out.existing_files = ∅ ∧
    out.missing_dirs ∪ out.existing_dirs = r.dirs ∧
    out.missing_dirs ∩ out.existing_dirs = ∅ := by
  simp only [get_missing_and_existing_files] at h
  split at h
  · exact absurd h (by simp)
  · cases h
    refine ⟨rfl, rfl, rfl, rfl, Finset.sdiff_union_inter _ _, ?_,
      Finset.sdiff_union_inter _ _, ?_⟩ <;>
      · ext p
        simp only [Finset.mem_inter, Finset.mem_sdiff, Finset.not_mem_empty, iff_false]
        tauto

/-- Witness for C3 at a concrete pair of snapshots. -/
theorem C3_reconcile_set_algebra_witness :
    (⟨{["a"]}, {["b"]}, {["d"]}, ∅⟩ : ReconcileOut).missing_files =
        ({["a"], ["b"]} : Finset RelPath) \ {["b"]} ∧
    (⟨{["a"]}, {["b"]}, {["d"]}, ∅⟩ : ReconcileOut).existing_files =
        ({["a"], ["b"]} : Finset RelPath) ∩ {["b"]} ∧
    (⟨{["a"]}, {["b"]}, {["d"]}, ∅⟩ : ReconcileOut).missing_dirs =
        ({["d"]} : Finset RelPath) \ ∅ ∧
    (⟨{["a"]}, {["b"]}, {["d"]}, ∅⟩ : ReconcileOut).existing_dirs =
        ({["d"]} : Finset RelPath) ∩ ∅ ∧
    (⟨{["a"]}, {["b"]}, {["d"]}, ∅⟩ : ReconcileOut).missing_files ∪
        (⟨{["a"]}, {["b"]}, {["d"]}, ∅⟩ : ReconcileOut).existing_files = {["a"], ["b"]} ∧
    (⟨{["a"]}, {["b"]}, {["d"]}, ∅⟩ : ReconcileOut).missing_files ∩
        (⟨{["a"]}, {["b"]}, {["d"]}, ∅⟩ : ReconcileOut).existing_files = ∅ ∧
    (⟨{["a"]}, {["b"]}, {["d"]}, ∅⟩ : ReconcileOut).missing_dirs ∪
        (⟨{["a"]}, {["b"]}, {["d"]}, ∅⟩ : ReconcileOut).existing_dirs = {["d"]} ∧
    (⟨{["a"]}, {["b"]}, {["d"]}, ∅⟩ : ReconcileOut).missing_dirs ∩
        (⟨{["a"]}, {["b"]}, {["d"]}, ∅⟩ : ReconcileOut).existing_dirs = ∅ :=
  C3_reconcile_set_algebra ⟨{["a"], ["b"]}, {["d"]}⟩ ⟨{["b"]}, ∅⟩ _ rfl

/-- C4: the reconciler fails carrying exactly
`(existingFiles ∩ missingDirs) ∪ (missingFiles ∩ existingDirs)` precisely
when that set is non-empty, and otherwise returns the four sets. -/
theorem C4_type_conflict_iff_bad_type_items (r l : TreeSnapshot) :
    get_missing_and_existing_files r l =
      if (bad_type_items r l).Nonempty then Except.error (bad_type_items r l)
      else Except.ok ⟨r.files \ l.files, r.files ∩ l.files, r.dirs \ l.dirs, r.dirs ∩ l.dirs⟩ :=
  rfl

/-- C2 (code evaluation at the failing input): with `R.files = {"a"}`,
`L.dirs = {"a"}` — the path is a file remotely and a directory locally —
the reconciler raises nothing and simply reports `"a"` as a missing
file, because `bad_type_items` only intersects sets drawn from the same
(remote) side.  The source's own comment (line 186) says this case must
be rejected. -/
theorem C2_cross_side_conflict_not_detected :
    get_missing_and_existing_files ⟨{["a"]}, ∅⟩ ⟨∅, {["a"]}⟩ =
      Except.ok ⟨{["a"]}, ∅, ∅, ∅⟩ := rfl

/-! ## Verifier theorem -/

/-- C5: the verifier returns exactly the existing files whose digests
differ or whose sizes differ, with no duplicates. -/
theorem C5_verify_faulty_set (src_sha1 dst_sha1 : RelPath → String)
    (src_size dst_size : RelPath → Nat) (existing_files : List RelPath)
    (h : existing_files.Nodup) :
    (verify src_sha1 dst_sha1 src_size dst_size existing_files).Nodup ∧
    ∀ f, f ∈ verify src_sha1 dst_sha1 src_size dst_size existing_files ↔
      f ∈ existing_files ∧ (src_sha1 f ≠ dst_sha1 f ∨ src_size f ≠ dst_size f) := by
  constructor
  · exact h.filter _
  · intro f
    simp [verify, List.mem_filter]

/-- Witness for C5: one digest mismatch, one size mismatch, one clean
file. -/
theorem C5_verify_faulty_set_witness :
    (verify (fun _ => "A") (fun p => if p = ["x"] then "B" else "A")
        (fun _ => 1) (fun p => if p = ["y"] then 2 else 1) [["x"], ["y"], ["z"]]).Nodup ∧
    ∀ f, f ∈ verify (fun _ => "A") (fun p => if p = ["x"] then "B" else "A")
        (fun _ => 1) (fun p => if p = ["y"] then 2 else 1) [["x"], ["y"], ["z"]] ↔
      f ∈ [["x"], ["y"], ["z"]] ∧
        ((fun _ => "A") f ≠ (fun p => if p = ["x"] then "B" else "A") f ∨
         (fun _ => 1) f ≠ (fun p => if p = ["y"] then 2 else 1) f) :=
  C5_verify_faulty_set _ _ _ _ _ (by decide)

/-! ## Directory-creation lemmas -/

theorem pathLe_trans : ∀ (a b c : RelPath), pathLe a b = true → pathLe b c = true →
    pathLe a c = true
  | [], _, _, _, _ => rfl
  | _ :: _, [], _, h, _ => by simp [pathLe] at h
  | _ :: _, _ :: _, [], _, h => by simp [pathLe] at h
  | a :: as, b :: bs, c :: cs, h1, h2 => by
    simp only [pathLe] at h1 h2 ⊢
    by_cases hab : a < b
    · by_cases hbc : b < c
      · rw [if_pos (lt_trans hab hbc)]
      · rw [if_neg hbc] at h2
        by_cases hbc' : b = c
        · subst hbc'
          rw [if_pos hab]
        · rw [if_neg hbc'] at h2
          exact absurd h2 (by simp)
    · rw [if_neg hab] at h1
      by_cases hab' : a = b
      · subst hab'
        rw [if_pos rfl] at h1
        by_cases hac : a < c
        · rw [if_pos hac]
        · rw [if_neg hac] at h2 ⊢
          by_cases hac' : a = c
          · rw [if_pos hac'] at h2 ⊢
            subst hac'
            exact pathLe_trans as bs cs h1 h2
          · rw [if_neg hac'] at h2
            exact absurd h2 (by simp)
      · rw [if_neg hab'] at h1
        exact absurd h1 (by simp)

theorem pathLe_total : ∀ (a b : RelPath), pathLe a b || pathLe b a
  | [], _ => by simp [pathLe]
  | _ :: _, [] => by simp [pathLe]
  | a :: as, b :: bs => by
    simp only [pathLe]
    rcases lt_trichotomy a b with h | h | h
    · simp [h]
    · subst h
      simpa [lt_irrefl] using pathLe_total as bs
    · simp [h, not_lt_of_gt h, (ne_of_gt h)]

instance : IsTrans RelPath pathLeP := ⟨fun a b c => pathLe_trans a b c⟩

instance : IsTotal RelPath pathLeP := ⟨fun a b => by
  have h : pathLe a b = true ∨ pathLe b a = true := by
    simpa using pathLe_total a b
  exact h⟩

theorem sortPaths_pairwise (l : List RelPath) :
    (sortPaths l).Pairwise (fun a b => pathLe a b = true) :=
  List.sorted_insertionSort pathLeP l

theorem mem_sortPaths {l : List RelPath} {d : RelPath} (h : d ∈ l) : d ∈ sortPaths l :=
  (List.mem_insertionSort pathLeP).2 h

/-- A path never sorts at or before one of its proper component
prefixes. -/
theorem pathLe_self_append : ∀ (d t : RelPath), t ≠ [] → pathLe (d ++ t) d = false
  | [], [], h => absurd rfl h
  | [], _ :: _, _ => rfl
  | a :: d', t, h => by
    simp only [List.cons_append, pathLe, lt_irrefl, if_false, if_pos rfl]
    exact pathLe_self_append d' t h

theorem mem_ancestors {p d : RelPath} (h : p ∈ ancestors d) :
    ∃ k, k < d.length ∧ p = d.take (k + 1) := by
  simp only [ancestors, List.mem_map, List.mem_range] at h
  obtain ⟨k, hk, rfl⟩ := h
  exact ⟨k, hk, rfl⟩

theorem self_mem_ancestors {d : RelPath} (h : d ≠ []) : d ∈ ancestors d := by
  simp only [ancestors, List.mem_map, List.mem_range]
  refine ⟨d.length - 1, ?_, ?_⟩
  · have : 0 < d.length := List.length_pos.2 h
    omega
  · have : d.length - 1 + 1 = d.length := by
      have : 0 < d.length := List.length_pos.2 h
      omega
    rw [this, List.take_length]

/-- A member of `ancestors x` other than `x` itself sorts strictly
before `x`. -/
theorem pathLe_false_of_mem_ancestors {p x : RelPath} (h : p ∈ ancestors x) (hne : p ≠ x) :
    pathLe x p = false := by
  obtain ⟨k, _hk, rfl⟩ := mem_ancestors h
  have hx : x.take (k + 1) ++ x.drop (k + 1) = x := List.take_append_drop _ _
  generalize hp : x.take (k + 1) = p at hne hx ⊢
  generalize ht : x.drop (k + 1) = t at hx
  have hd : t ≠ [] := by
    intro hnil
    apply hne
    rw [← hx, hnil, List.append_nil]
  rw [← hx]
  exact pathLe_self_append p t hd

theorem create_dirs_go_files : ∀ (l : List RelPath) (fs fs' : LFS) (evs : List Event),
    create_dirs_go fs l = Except.ok (fs', evs) → fs'.files = fs.files
  | [], fs, fs', evs, h => by
    simp only [create_dirs_go] at h
    cases h
    rfl
  | d :: rest, fs, fs', evs, h => by
    simp only [create_dirs_go] at h
    split at h
    · cases hrec : create_dirs_go (makedirs fs d) rest with
      | error e => rw [hrec] at h; cases h
      | ok pr =>
        obtain ⟨fs2, evs2⟩ := pr
        rw [hrec] at h
        cases h
        have hfiles := create_dirs_go_files rest (makedirs fs d) _ _ hrec
        simpa [makedirs] using hfiles
    · split at h
      · exact create_dirs_go_files rest _ _ _ h
      · cases h

theorem create_dirs_go_dirs_mono : ∀ (l : List RelPath) (fs fs' : LFS) (evs : List Event),
    create_dirs_go fs l = Except.ok (fs', evs) → ∀ p ∈ fs.dirs, p ∈ fs'.dirs
  | [], fs, fs', evs, h => by
    simp only [create_dirs_go] at h
    cases h
    exact fun p hp => hp
  | d :: rest, fs, fs', evs, h => by
    simp only [create_dirs_go] at h
    split at h
    · cases hrec : create_dirs_go (makedirs fs d) rest with
      | error e => rw [hrec] at h; cases h
      | ok pr =>
        obtain ⟨fs2, evs2⟩ := pr
        rw [hrec] at h
        cases h
        intro q hq
        exact create_dirs_go_dirs_mono rest _ _ _ hrec q (List.mem_append_left _ hq)
    · split at h
      · exact create_dirs_go_dirs_mono rest _ _ _ h
      · cases h

theorem isDir_mono {fs fs' : LFS} (hsub : ∀ p ∈ fs.dirs, p ∈ fs'.dirs) {d : RelPath}
    (h : fs.isDir d = true) : fs'.isDir d = true := by
  simp only [LFS.isDir, Bool.or_eq_true, decide_eq_true_eq] at h ⊢
  rcases h with h | h
  · exact Or.inl h
  · exact Or.inr (hsub d h)

theorem create_dirs_go_isDir : ∀ (l : List RelPath) (fs fs' : LFS) (evs : List Event),
    create_dirs_go fs l = Except.ok (fs', evs) → ∀ d ∈ l, fs'.isDir d = true
  | [], _, _, _, _ => by simp
  | d :: rest, fs, fs', evs, h => by
    simp only [create_dirs_go] at h
    intro q hq
    split at h
    · cases hrec : create_dirs_go (makedirs fs d) rest with
      | error e => rw [hrec] at h; cases h
      | ok pr =>
        obtain ⟨fs2, evs2⟩ := pr
        rw [hrec] at h
        cases h
        rcases List.mem_cons.1 hq with rfl | hq'
        · by_cases hnil : q = []
          · subst hnil
            simp [LFS.isDir]
          · refine isDir_mono (create_dirs_go_dirs_mono rest _ _ _ hrec) ?_
            simp only [LFS.isDir, makedirs, Bool.or_eq_true, decide_eq_true_eq]
            exact Or.inr (List.mem_append_right _ (self_mem_ancestors hnil))
        · exact create_dirs_go_isDir rest _ _ _ hrec q hq'
    · split at h
      next hdir =>
        rcases List.mem_cons.1 hq with rfl | hq'
        · exact isDir_mono (create_dirs_go_dirs_mono rest _ _ _ h) hdir
        · exact create_dirs_go_isDir rest _ _ _ h q hq'
      next => cases h

theorem create_dirs_go_noop : ∀ (l : List RelPath) (fs : LFS),
    (∀ d ∈ l, fs.isDir d = true) → create_dirs_go fs l = Except.ok (fs, [])
  | [], fs, _ => rfl
  | d :: rest, fs, h => by
    have hd : fs.isDir d = true := h d (List.mem_cons_self _ _)
    have hex : fs.pathExists d = true := by
      simp only [LFS.pathExists, Bool.or_eq_true]
      exact Or.inr hd
    have hrec := create_dirs_go_noop rest fs (fun q hq => h q (List.mem_cons_of_mem _ hq))
    simp [create_dirs_go, hex, hd, hrec]

theorem create_dirs_go_events : ∀ (l : List RelPath) (fs fs' : LFS) (evs : List Event),
    create_dirs_go fs l = Except.ok (fs', evs) → ∀ e ∈ evs, ∃ d, e = Event.mkdir d
  | [], fs, fs', evs, h => by
    simp only [create_dirs_go] at h
    cases h
    simp
  | d :: rest, fs, fs', evs, h => by
    simp only [create_dirs_go] at h
    split at h
    · cases hrec : create_dirs_go (makedirs fs d) rest with
      | error e => rw [hrec] at h; cases h
      | ok pr =>
        obtain ⟨fs2, evs2⟩ := pr
        rw [hrec] at h
        cases h
        intro e he
        rcases List.mem_cons.1 he with rfl | he'
        · exact ⟨d, rfl⟩
        · exact create_dirs_go_events rest _ _ _ hrec e he'
    · split at h
      · exact create_dirs_go_events rest _ _ _ h
      · cases h

/-- Re-running directory creation on the state it produced changes
nothing and errors nowhere. -/
theorem create_all_directories_idem {fs fs' : LFS} {ds : List RelPath} {evs : List Event}
    (h : create_all_directories fs ds = Except.ok (fs', evs)) :
    create_all_directories fs' ds = Except.ok (fs', []) := by
  refine create_dirs_go_noop _ _ ?_
  intro d hd
  exact create_dirs_go_isDir _ _ _ _ h d hd

theorem create_dirs_go_error_of_conflict :
    ∀ (l : List RelPath) (fs : LFS) (d : RelPath),
      l.Pairwise (fun a b => pathLe a b = true) → d ∈ l →
      fs.isFile d = true → d ∉ fs.dirs → d ≠ [] →
      ∃ e, create_dirs_go fs l = Except.error e
  | [], _, _, _, hmem, _, _, _ => absurd hmem (List.not_mem_nil _)
  | x :: rest, fs, d, hpw, hmem, hfile, hdir, hnil => by
    have hpw' := (List.pairwise_cons.1 hpw).2
    have hx := (List.pairwise_cons.1 hpw).1
    rcases List.mem_cons.1 hmem with rfl | hmem'
    · -- the conflicting path itself is at the head: the `elif` of line 81 fires
      have hex : fs.pathExists d = true := by
        simp only [LFS.pathExists, Bool.or_eq_true]
        exact Or.inl hfile
      have hnd : fs.isDir d = false := by
        simp only [LFS.isDir, Bool.or_eq_false_iff, decide_eq_false_iff_not]
        refine ⟨?_, hdir⟩
        cases d with
        | nil => exact absurd rfl hnil
        | cons a as => rfl
      refine ⟨d, ?_⟩
      simp [create_dirs_go, hex, hnd]
    · by_cases hexx : fs.pathExists x = true
      · by_cases hdx : fs.isDir x = true
        · -- head already a directory: skipped, recurse
          obtain ⟨e, he⟩ :=
            create_dirs_go_error_of_conflict rest fs d hpw' hmem' hfile hdir hnil
          refine ⟨e, ?_⟩
          simp [create_dirs_go, hexx, hdx, he]
        · -- head exists as a file: errors right here
          refine ⟨x, ?_⟩
          simp [create_dirs_go, hexx, hdx]
      · -- head missing: `makedirs` runs, but can only add ancestors of a
        -- path that sorts at or after `d`, so `d` stays out of the dirs
        have hfile' : (makedirs fs x).isFile d = true := hfile
        have hdir' : d ∉ (makedirs fs x).dirs := by
          simp only [makedirs, List.mem_append]
          rintro (hn | hn)
          · exact hdir hn
          · by_cases hdx : d = x
            · subst hdx
              exact hexx (by simp [LFS.pathExists, hfile])
            · have hlt := pathLe_false_of_mem_ancestors hn hdx
              have hle := hx d hmem'
              rw [hle] at hlt
              cases hlt
        obtain ⟨e, he⟩ :=
          create_dirs_go_error_of_conflict rest (makedirs fs x) d hpw' hmem' hfile' hdir' hnil
        refine ⟨e, ?_⟩
        simp [create_dirs_go, hexx, he]

/-- Any sorted-order file/directory clash makes `create_all_directories`
fail. -/
theorem create_all_directories_conflict {fs : LFS} {ds : List RelPath} {d : RelPath}
    (hmem : d ∈ ds) (hfile : fs.isFile d = true) (hdir : d ∉ fs.dirs) (hnil : d ≠ []) :
    ∃ e, create_all_directories fs ds = Except.error e := by
  refine create_dirs_go_error_of_conflict _ _ d ?_ ?_ hfile hdir hnil
  · exact sortPaths_pairwise ds
  · exact mem_sortPaths hmem

/-! ## Puller lemmas -/

theorem lookupFile_delete (l : List (RelPath × FileData)) (del : List RelPath)
    (p : RelPath) (hp : p ∈ del) :
    lookupFile (l.filter (fun pr => decide (pr.1 ∉ del))) p = none := by
  induction l with
  | nil => rfl
  | cons pr rest ih =>
    by_cases hmem : pr.1 ∈ del
    · simpa [List.filter_cons, hmem] using ih
    · have hne : pr.1 ≠ p := fun hEq => hmem (hEq ▸ hp)
      simpa [List.filter_cons, hmem, lookupFile, hne] using ih

theorem delete_files_isFile_false {fs : LFS} {del : List RelPath} {p : RelPath}
    (hp : p ∈ del) : (delete_files fs del).isFile p = false := by
  simp only [delete_files, LFS.isFile]
  rw [lookupFile_delete _ _ _ hp]
  rfl

theorem pull_step_evs {o : Oracles} {fs : LFS} {f : RelPath} {st : PullStatus}
    {fs2 : LFS} {evs : List Event}
    (h : pull_step o fs f = Except.ok (st, fs2, evs)) :
    evs = [Event.pullAttempt f] ∨ evs = [Event.pullAttempt f, Event.pullError f st] ∨
    evs = [Event.pullAttempt f, Event.pullError f st, Event.deleteFile f] := by
  simp only [pull_step] at h
  cases hpf : pull_file (o.srcSize f) (o.srcDigest f) (applyTransfer fs f (o.transfer f)) f with
  | error e => rw [hpf] at h; cases h
  | ok st' =>
    simp only [hpf] at h
    by_cases h1 : st' = PullStatus.success
    · rw [if_pos h1] at h
      cases h
      exact Or.inl rfl
    · rw [if_neg h1] at h
      by_cases h2 : st' = PullStatus.not_pulled
      · rw [if_pos h2] at h
        cases h
        exact Or.inr (Or.inl rfl)
      · rw [if_neg h2] at h
        cases h
        exact Or.inr (Or.inr rfl)

theorem pull_step_attempt_mem {o : Oracles} {fs : LFS} {f : RelPath} {st : PullStatus}
    {fs2 : LFS} {evs : List Event}
    (h : pull_step o fs f = Except.ok (st, fs2, evs)) : Event.pullAttempt f ∈ evs := by
  rcases pull_step_evs h with rfl | rfl | rfl <;> simp

theorem pull_step_no_mkdir {o : Oracles} {fs : LFS} {f : RelPath} {st : PullStatus}
    {fs2 : LFS} {evs : List Event}
    (h : pull_step o fs f = Except.ok (st, fs2, evs)) :
    ∀ e ∈ evs, ∀ d, e ≠ Event.mkdir d := by
  intro e he d
  rcases pull_step_evs h with rfl | rfl | rfl
  · simp only [List.mem_singleton] at he
    subst he
    simp
  · simp only [List.mem_cons, List.not_mem_nil, or_false] at he
    rcases he with rfl | rfl <;> simp
  · simp only [List.mem_cons, List.not_mem_nil, or_false] at he
    rcases he with rfl | rfl | rfl <;> simp

theorem pull_loop_no_mkdir : ∀ (l : List RelPath) (o : Oracles) (fs fs' : LFS)
    (evs : List Event) (failed : List RelPath),
    pull_loop o fs l = Except.ok (fs', evs, failed) → ∀ e ∈ evs, ∀ d, e ≠ Event.mkdir d
  | [], o, fs, fs', evs, failed, h => by
    simp only [pull_loop] at h
    cases h
    simp
  | f :: rest, o, fs, fs', evs, failed, h => by
    simp only [pull_loop] at h
    cases hstep : pull_step o fs f with
    | error e =>
      simp only [hstep] at h
      cases h
    | ok tr =>
      obtain ⟨st, fs1, evs1⟩ := tr
      simp only [hstep] at h
      cases hrec : pull_loop o fs1 rest with
      | error e =>
        simp only [hrec] at h
        cases h
      | ok tr2 =>
        obtain ⟨fs2, evs2, failed2⟩ := tr2
        simp only [hrec] at h
        cases h
        intro e he d
        rcases List.mem_append.1 he with he1 | he2
        · exact pull_step_no_mkdir hstep e he1 d
        · exact pull_loop_no_mkdir rest o fs1 _ _ _ hrec e he2 d

theorem pull_loop_attempts : ∀ (l : List RelPath) (o : Oracles) (fs fs' : LFS)
    (evs : List Event) (failed : List RelPath),
    pull_loop o fs l = Except.ok (fs', evs, failed) → ∀ f ∈ l, Event.pullAttempt f ∈ evs
  | [], o, fs, fs', evs, failed, h => by simp
  | f :: rest, o, fs, fs', evs, failed, h => by
    simp only [pull_loop] at h
    cases hstep : pull_step o fs f with
    | error e =>
      simp only [hstep] at h
      cases h
    | ok tr =>
      obtain ⟨st, fs1, evs1⟩ := tr
      simp only [hstep] at h
      cases hrec : pull_loop o fs1 rest with
      | error e =>
        simp only [hrec] at h
        cases h
      | ok tr2 =>
        obtain ⟨fs2, evs2, failed2⟩ := tr2
        simp only [hrec] at h
        cases h
        intro g hg
        rcases List.mem_cons.1 hg with rfl | hg'
        · exact List.mem_append_left _ (pull_step_attempt_mem hstep)
        · exact List.mem_append_right _
            (pull_loop_attempts rest o fs1 _ _ _ hrec g hg')

/-! ## Pull-classification theorem -/

/-- C6: the outcome of one attempted transfer is classified from the
post-transfer local state — `not_pulled` when nothing exists at the path
(nothing deleted), `wrong_size` when a file exists with the wrong byte
size (then deleted), `wrong_hash` when the size matches but the digest
does not (then deleted), `success` when both match (file retained) — and
every non-success outcome is appended to the failed list handed back to
the caller. -/
theorem C6_pull_outcome_classification (o : Oracles) (fs : LFS) (f : RelPath) (fs1 : LFS)
    (hfs1 : fs1 = applyTransfer fs f (o.transfer f)) :
    (fs1.pathExists f = false →
      pull_step o fs f = Except.ok (PullStatus.not_pulled, fs1,
        [Event.pullAttempt f, Event.pullError f PullStatus.not_pulled])) ∧
    (fs1.isFile f = true → o.srcSize f ≠ fs1.localSize f →
      pull_step o fs f = Except.ok (PullStatus.wrong_size, delete_files fs1 [f],
        [Event.pullAttempt f, Event.pullError f PullStatus.wrong_size,
         Event.deleteFile f]) ∧
      (delete_files fs1 [f]).isFile f = false) ∧
    (fs1.isFile f = true → o.srcSize f = fs1.localSize f →
     o.srcDigest f ≠ fs1.localDigest f →
      pull_step o fs f = Except.ok (PullStatus.wrong_hash, delete_files fs1 [f],
        [Event.pullAttempt f, Event.pullError f PullStatus.wrong_hash,
         Event.deleteFile f]) ∧
      (delete_files fs1 [f]).isFile f = false) ∧
    (fs1.isFile f = true → o.srcSize f = fs1.localSize f →
     o.srcDigest f = fs1.localDigest f →
      pull_step o fs f = Except.ok (PullStatus.success, fs1, [Event.pullAttempt f])) ∧
    (∀ st fs2 evs, pull_step o fs f = Except.ok (st, fs2, evs) →
      pull_loop o fs [f] =
        Except.ok (fs2, evs, if st ≠ PullStatus.success then [f] else [])) := by
  subst hfs1
  refine ⟨?_, ?_, ?_, ?_, ?_⟩
  · intro hex
    have hfile : (applyTransfer fs f (o.transfer f)).isFile f = false := by
      simp only [LFS.pathExists, Bool.or_eq_false_iff] at hex
      exact hex.1
    simp [pull_step, pull_file, hfile, hex]
  · intro hfile hsz
    refine ⟨?_, delete_files_isFile_false (by simp)⟩
    simp [pull_step, pull_file, hfile, hsz]
  · intro hfile hsz hdg
    refine ⟨?_, delete_files_isFile_false (by simp)⟩
    simp [pull_step, pull_file, hfile, hsz, hdg]
  · intro hfile hsz hdg
    simp [pull_step, pull_file, hfile, hsz, hdg]
  · intro st fs2 evs hstep
    simp [pull_loop, hstep]

/-- Witness for C6: the four classifications and the failed-list
surfacing at concrete transfers. -/
theorem C6_pull_outcome_classification_witness :
    (pull_step ⟨fun _ => "a", fun _ => 5, fun _ => none, false, false⟩ ⟨[], []⟩ ["f"] =
      Except.ok (PullStatus.not_pulled, (⟨[], []⟩ : LFS),
        [Event.pullAttempt ["f"], Event.pullError ["f"] PullStatus.not_pulled])) ∧
    (pull_step ⟨fun _ => "a", fun _ => 7, fun _ => some ⟨5, "a"⟩, false, false⟩
        ⟨[], []⟩ ["f"] =
      Except.ok (PullStatus.wrong_size, (⟨[], []⟩ : LFS),
        [Event.pullAttempt ["f"], Event.pullError ["f"] PullStatus.wrong_size,
         Event.deleteFile ["f"]])) ∧
    (pull_step ⟨fun _ => "b", fun _ => 5, fun _ => some ⟨5, "a"⟩, false, false⟩
        ⟨[], []⟩ ["f"] =
      Except.ok (PullStatus.wrong_hash, (⟨[], []⟩ : LFS),
        [Event.pullAttempt ["f"], Event.pullError ["f"] PullStatus.wrong_hash,
         Event.deleteFile ["f"]])) ∧
    (pull_step ⟨fun _ => "a", fun _ => 5, fun _ => some ⟨5, "a"⟩, false, false⟩
        ⟨[], []⟩ ["f"] =
      Except.ok (PullStatus.success, (⟨[(["f"], ⟨5, "a"⟩)], []⟩ : LFS),
        [Event.pullAttempt ["f"]])) ∧
    (pull_loop ⟨fun _ => "a", fun _ => 7, fun _ => some ⟨5, "a"⟩, false, false⟩
        ⟨[], []⟩ [["f"]] =
      Except.ok ((⟨[], []⟩ : LFS),
        [Event.pullAttempt ["f"], Event.pullError ["f"] PullStatus.wrong_size,
         Event.deleteFile ["f"]], [["f"]])) := by
  refine ⟨?_, ?_, ?_, ?_, ?_⟩
  · exact (C6_pull_outcome_classification
      ⟨fun _ => "a", fun _ => 5, fun _ => none, false, false⟩
      ⟨[], []⟩ ["f"] _ rfl).1 (by decide)
  · exact ((C6_pull_outcome_classification
      ⟨fun _ => "a", fun _ => 7, fun _ => some ⟨5, "a"⟩, false, false⟩
      ⟨[], []⟩ ["f"] _ rfl).2.1 (by decide) (by decide)).1
  · exact ((C6_pull_outcome_classification
      ⟨fun _ => "b", fun _ => 5, fun _ => some ⟨5, "a"⟩, false, false⟩
      ⟨[], []⟩ ["f"] _ rfl).2.2.1 (by decide) (by decide) (by decide)).1
  · exact (C6_pull_outcome_classification
      ⟨fun _ => "a", fun _ => 5, fun _ => some ⟨5, "a"⟩, false, false⟩
      ⟨[], []⟩ ["f"] _ rfl).2.2.2.1 (by decide) (by decide) (by decide)
  · exact (C6_pull_outcome_classification
      ⟨fun _ => "a", fun _ => 7, fun _ => some ⟨5, "a"⟩, false, false⟩
      ⟨[], []⟩ ["f"] _ rfl).2.2.2.2 _ _ _
      (((C6_pull_outcome_classification
        ⟨fun _ => "a", fun _ => 7, fun _ => some ⟨5, "a"⟩, false, false⟩
        ⟨[], []⟩ ["f"] _ rfl).2.1 (by decide) (by decide)).1)

/-! ## Single-file mode theorem -/

/-- C8: when the remote root is itself a file, the run performs a
one-entry comparison on its basename: existing when locally a file, a
type-conflict error when the local path exists but is not a file, and
missing when the local path does not exist. -/
theorem C8_single_file_mode (filename : RelPath) (fs : LFS) :
    (fs.isFile filename = true →
      single_file_reconcile filename fs = Except.ok ([], [filename])) ∧
    (fs.pathExists filename = true → fs.isFile filename = false →
      single_file_reconcile filename fs = Except.error filename) ∧
    (fs.pathExists filename = false →
      single_file_reconcile filename fs = Except.ok ([filename], [])) := by
  refine ⟨?_, ?_, ?_⟩
  · intro hfile
    have hex : fs.pathExists filename = true := by
      simp [LFS.pathExists, hfile]
    simp [single_file_reconcile, hex, hfile]
  · intro hex hfile
    simp [single_file_reconcile, hex, hfile]
  · intro hex
    simp [single_file_reconcile, hex]

/-- Witness for C8: the three classifications at concrete local
states. -/
theorem C8_single_file_mode_witness :
    single_file_reconcile ["f"] ⟨[(["f"], ⟨1, "a"⟩)], []⟩ = Except.ok ([], [["f"]]) ∧
    single_file_reconcile ["g"] ⟨[], [["g"]]⟩ = Except.error ["g"] ∧
    single_file_reconcile ["h"] ⟨[], []⟩ = Except.ok ([["h"]], []) :=
  ⟨(C8_single_file_mode ["f"] _).1 (by decide),
   (C8_single_file_mode ["g"] _).2.1 (by decide) (by decide),
   (C8_single_file_mode ["h"] _).2.2 (by decide)⟩

/-! ## Orchestrator lemmas -/

theorem verify_phase_trace_shape (o : Oracles) (args : Args) (fs : LFS)
    (missing existing : List RelPath) :
    ∀ e ∈ (verify_phase o args fs missing existing).trace,
      (∀ d, e ≠ Event.mkdir d) ∧ (∀ f, e ≠ Event.pullAttempt f) := by
  intro e he
  simp only [verify_phase, List.mem_cons] at he
  rcases he with rfl | he
  · exact ⟨fun d => by simp, fun f => by simp⟩
  · split at he
    · simp only [List.mem_map] at he
      obtain ⟨f, _, rfl⟩ := he
      exact ⟨fun d => by simp, fun g => by simp⟩
    · simp at he

theorem verify_phase_isDir (o : Oracles) (args : Args) (fs : LFS)
    (missing existing : List RelPath) (p : RelPath) :
    (verify_phase o args fs missing existing).fs.isDir p = fs.isDir p := by
  simp only [verify_phase]
  split <;> rfl

theorem override_and_pull_ok {args : Args} {o : Oracles} {fs : LFS} {pre : List Event}
    {missing existing : List RelPath} {r : RunResult}
    (h : override_and_pull args o fs pre missing existing = Except.ok r) :
    ∃ evs2 failed,
      pull_loop o fs r.pullList = Except.ok (r.fs, evs2, failed) ∧
      r.trace = pre ++ evs2 ∧ r.failed = failed ∧ r.reachedPull = true ∧
      r.pullList = (if args.override && (args.yes || o.userOverride)
                    then missing ++ existing else missing) ∧
      r.existingAfter = existing ∧ r.fsBeforePull = fs := by
  simp only [override_and_pull] at h
  cases hpl : pull_loop o fs
      (if args.override && (args.yes || o.userOverride)
       then missing ++ existing else missing) with
  | error e =>
    simp only [hpl] at h
    cases h
  | ok tr =>
    obtain ⟨fs2, evs2, failed⟩ := tr
    simp only [hpl] at h
    cases h
    exact ⟨evs2, failed, hpl, rfl, rfl, rfl, rfl, rfl, rfl⟩

/-! ## Directory-ordering / idempotence / conflict theorem -/

/-- C7: (1) in every successful run, the event trace splits into a block
of `mkdir` events followed by a block with no `mkdir` at all — so every
directory creation precedes every pull attempt — and on entry to the
pull section every missing directory exists locally; (2) directory
creation is idempotent: re-running it on the state it produced succeeds
and creates nothing; (3) a directory that already exists locally as a
file makes directory creation fail hard. -/
theorem C7_dirs_created_first_idempotent_conflict :
    (∀ (args : Args) (o : Oracles) (fs : LFS) (mf ex md : List RelPath) (r : RunResult),
      main_after_reconcile args o fs mf ex md = Except.ok r →
      (∃ A B, r.trace = A ++ B ∧ (∀ e ∈ A, ∃ d, e = Event.mkdir d) ∧
        (∀ d, Event.mkdir d ∉ B)) ∧
      (∀ d ∈ md, r.fsBeforePull.isDir d = true)) ∧
    (∀ (fs : LFS) (ds : List RelPath) (fs' : LFS) (evs : List Event),
      create_all_directories fs ds = Except.ok (fs', evs) →
      create_all_directories fs' ds = Except.ok (fs', [])) ∧
    (∀ (fs : LFS) (ds : List RelPath) (d : RelPath),
      d ∈ ds → fs.isFile d = true → d ∉ fs.dirs → d ≠ [] →
      ∃ e, create_all_directories fs ds = Except.error e) := by
  refine ⟨?_, ?_, ?_⟩
  · intro args o fs mf ex md r h
    simp only [main_after_reconcile] at h
    cases hc : create_all_directories fs md with
    | error e =>
      simp only [hc] at h
      cases h
    | ok pr =>
      obtain ⟨fs1, evs1⟩ := pr
      simp only [hc] at h
      have hmk : ∀ e ∈ evs1, ∃ d, e = Event.mkdir d :=
        create_dirs_go_events _ _ _ _ hc
      have hdirs1 : ∀ d ∈ md, fs1.isDir d = true := fun d hd =>
        create_dirs_go_isDir _ _ _ _ hc d (mem_sortPaths hd)
      by_cases hva : (args.verify || args.auto) = true
      · rw [if_pos hva] at h
        by_cases hv : args.verify = true
        · rw [if_pos hv] at h
          cases h
          refine ⟨⟨evs1, (verify_phase o args fs1 mf ex).trace, rfl, hmk, ?_⟩, ?_⟩
          · intro d hd
            exact (verify_phase_trace_shape o args fs1 mf ex _ hd).1 d rfl
          · intro d hd
            rw [verify_phase_isDir]
            exact hdirs1 d hd
        · rw [if_neg hv] at h
          obtain ⟨evs2, failed, hpl, htr, _, _, _, _, hbp⟩ := override_and_pull_ok h
          refine ⟨⟨evs1, (verify_phase o args fs1 mf ex).trace ++ evs2, ?_, hmk, ?_⟩, ?_⟩
          · rw [htr, List.append_assoc]
          · intro d hd
            rcases List.mem_append.1 hd with hd1 | hd2
            · exact (verify_phase_trace_shape o args fs1 mf ex _ hd1).1 d rfl
            · exact pull_loop_no_mkdir _ _ _ _ _ _ hpl _ hd2 d rfl
          · intro d hd
            rw [hbp, verify_phase_isDir]
            exact hdirs1 d hd
      · rw [if_neg hva] at h
        obtain ⟨evs2, failed, hpl, htr, _, _, _, _, hbp⟩ := override_and_pull_ok h
        refine ⟨⟨evs1, evs2, htr, hmk, ?_⟩, ?_⟩
        · intro d hd
          exact pull_loop_no_mkdir _ _ _ _ _ _ hpl _ hd d rfl
        · intro d hd
          rw [hbp]
          exact hdirs1 d hd
  · intro fs ds fs' evs h
    exact create_all_directories_idem h
  · intro fs ds d hmem hfile hdir hnil
    exact create_all_directories_conflict hmem hfile hdir hnil

/-- Witness for C7: a run that creates one directory then pulls nothing,
idempotent re-creation, and a file/directory clash. -/
theorem C7_dirs_created_first_idempotent_conflict_witness :
    ((∃ A B, ([Event.mkdir ["d"]] : List Event) = A ++ B ∧
        (∀ e ∈ A, ∃ d, e = Event.mkdir d) ∧ (∀ d, Event.mkdir d ∉ B)) ∧
      (∀ d ∈ [[ "d" ]], (⟨[], [["d"]]⟩ : LFS).isDir d = true)) ∧
    create_all_directories ⟨[], [["d"]]⟩ [["d"]] = Except.ok (⟨[], [["d"]]⟩, []) ∧
    (∃ e, create_all_directories ⟨[(["a"], ⟨1, "x"⟩)], []⟩ [["a"]] = Except.error e) := by
  refine ⟨?_, ?_, ?_⟩
  · have h := (C7_dirs_created_first_idempotent_conflict.1
      ⟨false, false, false, false⟩ ⟨fun _ => "", fun _ => 0, fun _ => none, false, false⟩
      ⟨[], []⟩ [] [] [["d"]]
      ⟨[Event.mkdir ["d"]], ⟨[], [["d"]]⟩, [], true, [], [], ⟨[], [["d"]]⟩⟩ (by decide))
    exact h
  · exact C7_dirs_created_first_idempotent_conflict.2.1 ⟨[], []⟩ [["d"]]
      ⟨[], [["d"]]⟩ [Event.mkdir ["d"]] (by decide)
  · exact C7_dirs_created_first_idempotent_conflict.2.2 ⟨[(["a"], ⟨1, "x"⟩)], []⟩ [["a"]]
      ["a"] (by decide) (by decide) (by decide) (by decide)

theorem verify_phase_fs_dirs (o : Oracles) (args : Args) (fs : LFS)
    (missing existing : List RelPath) :
    (verify_phase o args fs missing existing).fs.dirs = fs.dirs := by
  simp only [verify_phase]
  split <;> rfl

theorem verify_phase_fs_files (o : Oracles) (args : Args) (fs : LFS)
    (missing existing : List RelPath) :
    (verify_phase o args fs missing existing).fs.files =
      (if (!(verify o.srcDigest fs.localDigest o.srcSize fs.localSize existing).isEmpty) &&
          (args.yes || o.userDelete)
       then fs.files.filter (fun pr => decide
         (pr.1 ∉ verify o.srcDigest fs.localDigest o.srcSize fs.localSize existing))
       else fs.files) := by
  simp only [verify_phase]
  split <;> rfl

/-! ## Repair re-queueing theorem -/

/-- C9: in a continuing (`--auto`, not `--verify`) run where deletion is
declined (`--yes` unset and the user answers no), the faulty files are
still moved out of the existing list and into the pull list, nothing is
deleted before the pull section, and every queued file is then
attempted — i.e. the re-pull happens over the still-present local
copies. -/
theorem C9_faulty_requeued_without_deletion (args : Args) (o : Oracles) (fs : LFS)
    (mf ex md : List RelPath) (r : RunResult)
    (hv : args.verify = false) (ha : args.auto = true)
    (hy : args.yes = false) (hu : o.userDelete = false)
    (h : main_after_reconcile args o fs mf ex md = Except.ok r) :
    ∃ fs1 evs1,
      create_all_directories fs md = Except.ok (fs1, evs1) ∧
      r.fsBeforePull.files = fs.files ∧
      r.existingAfter = ex.filter (fun f => decide
        (f ∉ verify o.srcDigest fs1.localDigest o.srcSize fs1.localSize ex)) ∧
      (mf ++ verify o.srcDigest fs1.localDigest o.srcSize fs1.localSize ex) <+:
        r.pullList ∧
      (∀ f ∈ r.pullList, Event.pullAttempt f ∈ r.trace) := by
  simp only [main_after_reconcile] at h
  cases hc : create_all_directories fs md with
  | error e =>
    simp only [hc] at h
    cases h
  | ok pr =>
    obtain ⟨fs1, evs1⟩ := pr
    simp only [hc] at h
    rw [if_pos (by rw [ha, Bool.or_true])] at h
    rw [if_neg (by simp [hv])] at h
    have hvfs : (verify_phase o args fs1 mf ex).fs = fs1 := by
      simp [verify_phase, hy, hu]
    have hvm : (verify_phase o args fs1 mf ex).missing =
        mf ++ verify o.srcDigest fs1.localDigest o.srcSize fs1.localSize ex := rfl
    have hve : (verify_phase o args fs1 mf ex).existing =
        ex.filter (fun f => decide
          (f ∉ verify o.srcDigest fs1.localDigest o.srcSize fs1.localSize ex)) := rfl
    obtain ⟨evs2, failed, hpl, htr, _, _, hplist, hexist, hbp⟩ := override_and_pull_ok h
    refine ⟨fs1, evs1, rfl, ?_, ?_, ?_, ?_⟩
    · rw [hbp, hvfs]
      exact create_dirs_go_files _ _ _ _ hc
    · rw [hexist, hve]
    · rw [hplist, hvm, hve]
      by_cases hov : (args.override && (args.yes || o.userOverride)) = true
      · rw [if_pos hov]
        exact ⟨_, rfl⟩
      · rw [if_neg hov]
    · intro f hf
      rw [htr]
      exact List.mem_append_right _ (pull_loop_attempts _ _ _ _ _ _ hpl f hf)

/-- Witness for C9: a faulty `f2`, deletion declined, re-queued and
re-pulled over the still-present copy. -/
theorem C9_faulty_requeued_without_deletion_witness :
    ∃ fs1 evs1,
      create_all_directories ⟨[(["f2"], ⟨50, "XX"⟩)], []⟩ [] = Except.ok (fs1, evs1) ∧
      (⟨[(["f2"], ⟨50, "XX"⟩)], []⟩ : LFS).files =
        (⟨[(["f2"], ⟨50, "XX"⟩)], []⟩ : LFS).files ∧
      ([] : List RelPath) = [["f2"]].filter (fun f => decide
        (f ∉ verify (fun _ => "D2") fs1.localDigest (fun _ => 50) fs1.localSize
          [["f2"]])) ∧
      ([] ++ verify (fun _ => "D2") fs1.localDigest (fun _ => 50) fs1.localSize
          [["f2"]]) <+: [["f2"]] ∧
      (∀ f ∈ [[ "f2" ]],
        Event.pullAttempt f ∈
          [Event.reportFaulty [["f2"]], Event.pullAttempt ["f2"]]) := by
  have h := C9_faulty_requeued_without_deletion ⟨false, false, true, false⟩
    ⟨fun _ => "D2", fun _ => 50, fun _ => some ⟨50, "D2"⟩, false, false⟩
    ⟨[(["f2"], ⟨50, "XX"⟩)], []⟩ [] [["f2"]] []
    ⟨[Event.reportFaulty [["f2"]], Event.pullAttempt ["f2"]],
      ⟨[(["f2"], ⟨50, "D2"⟩)], []⟩, [], true, [["f2"]], [],
      ⟨[(["f2"], ⟨50, "XX"⟩)], []⟩⟩
    rfl rfl rfl rfl (by decide)
  exact h

/-! ## Repair-scenario theorems -/

/-- C1 counterexample: with BOTH `--verify` and `--auto` set, the faulty
`f2` is reported and deleted, but the run returns at line 295 without
entering the pull section (`reachedPull = false`, empty pull list, no
`pullAttempt` event), and `f2` is never re-pulled — the final state has
no files at all. -/
theorem C1_counterexample_verify_and_auto_terminates :
    main_after_reconcile ⟨false, true, true, true⟩
      ⟨fun _ => "D2", fun _ => 50, fun _ => some ⟨50, "D2"⟩, true, true⟩
      ⟨[(["f2"], ⟨50, "XX"⟩)], []⟩ [] [["f2"]] [] =
    Except.ok ⟨[Event.reportFaulty [["f2"]], Event.deleteFile ["f2"]],
      ⟨[], []⟩, [], false, [], [], ⟨[], []⟩⟩ := by
  decide

/-- C1 (amended): in the repair scenario — local `f2` present with a
wrong digest — a run with `--auto` and WITHOUT `--verify` (plus
confirmation of the deletion) reports `f2` faulty, deletes it, proceeds
to the pull section, re-pulls it successfully, and the post-verification
existing list excludes `f2`. -/
theorem C1_amended_auto_without_verify_repairs :
    main_after_reconcile ⟨false, false, true, true⟩
      ⟨fun _ => "D2", fun _ => 50, fun _ => some ⟨50, "D2"⟩, true, true⟩
      ⟨[(["f2"], ⟨50, "XX"⟩)], []⟩ [] [["f2"]] [] =
    Except.ok ⟨[Event.reportFaulty [["f2"]], Event.deleteFile ["f2"],
        Event.pullAttempt ["f2"]],
      ⟨[(["f2"], ⟨50, "D2"⟩)], []⟩, [], true, [["f2"]], [], ⟨[], []⟩⟩ := by
  decide

/-! ## Verify-only frame theorems -/

/-- C10 counterexample: a `--verify --yes` run over a faulty `f2` (and a
missing directory `d`) terminates after verification but DELETES `f2`:
the final file list is empty, not equal to the original one — so "the
local file contents and all other paths remain unchanged" fails as
stated. -/
theorem C10_counterexample_confirmed_deletion_mutates_files :
    (main_after_reconcile ⟨false, true, false, true⟩
      ⟨fun _ => "D2", fun _ => 50, fun _ => some ⟨50, "D2"⟩, true, true⟩
      ⟨[(["f2"], ⟨50, "XX"⟩)], []⟩ [] [["f2"]] [["d"]] =
    Except.ok ⟨[Event.mkdir ["d"], Event.reportFaulty [["f2"]],
        Event.deleteFile ["f2"]],
      ⟨[], [["d"]]⟩, [], false, [], [], ⟨[], [["d"]]⟩⟩) ∧
    ((⟨[], [["d"]]⟩ : LFS).files ≠ (⟨[(["f2"], ⟨50, "XX"⟩)], []⟩ : LFS).files) := by
  exact ⟨by decide, by decide⟩

/-- C10 (amended): a verify-only run is not mutation-free — all missing
directories are created (the `mkdir` events precede the faulty-file
report) even though no file is ever pulled; the file list is unchanged
unless deletion of the faulty files is confirmed (`--yes` or the user's
assent), in which case exactly the faulty files are removed; no other
directory change happens. -/
theorem C10_amended_verify_only_frame (args : Args) (o : Oracles) (fs : LFS)
    (mf ex md : List RelPath) (r : RunResult)
    (hv : args.verify = true)
    (h : main_after_reconcile args o fs mf ex md = Except.ok r) :
    ∃ fs1 evs1,
      create_all_directories fs md = Except.ok (fs1, evs1) ∧
      fs1.files = fs.files ∧
      (∀ e ∈ evs1, ∃ d, e = Event.mkdir d) ∧
      r.trace = evs1 ++
        Event.reportFaulty
          (verify o.srcDigest fs1.localDigest o.srcSize fs1.localSize ex) ::
        (if (!(verify o.srcDigest fs1.localDigest o.srcSize fs1.localSize ex).isEmpty)
            && (args.yes || o.userDelete)
         then (verify o.srcDigest fs1.localDigest o.srcSize fs1.localSize ex).map
           Event.deleteFile
         else []) ∧
      r.reachedPull = false ∧ r.failed = [] ∧ r.pullList = [] ∧
      (∀ f, Event.pullAttempt f ∉ r.trace) ∧
      r.fs.dirs = fs1.dirs ∧
      r.fs.files =
        (if (!(verify o.srcDigest fs1.localDigest o.srcSize fs1.localSize ex).isEmpty)
            && (args.yes || o.userDelete)
         then fs.files.filter (fun pr => decide
           (pr.1 ∉ verify o.srcDigest fs1.localDigest o.srcSize fs1.localSize ex))
         else fs.files) := by
  simp only [main_after_reconcile] at h
  cases hc : create_all_directories fs md with
  | error e =>
    simp only [hc] at h
    cases h
  | ok pr =>
    obtain ⟨fs1, evs1⟩ := pr
    simp only [hc] at h
    rw [if_pos (by rw [hv, Bool.true_or])] at h
    rw [if_pos hv] at h
    cases h
    have hfiles1 : fs1.files = fs.files := create_dirs_go_files _ _ _ _ hc
    have hmk : ∀ e ∈ evs1, ∃ d, e = Event.mkdir d := create_dirs_go_events _ _ _ _ hc
    refine ⟨fs1, evs1, rfl, hfiles1, hmk, rfl, rfl, rfl, rfl, ?_, ?_, ?_⟩
    · intro f hf
      rcases List.mem_append.1 hf with h1 | h1
      · obtain ⟨d, hd⟩ := hmk _ h1
        simp at hd
      · exact (verify_phase_trace_shape o args fs1 mf ex _ h1).2 f rfl
    · exact verify_phase_fs_dirs o args fs1 mf ex
    · rw [verify_phase_fs_files o args fs1 mf ex, hfiles1]

/-- Witness for C10 (amended) at the concrete verify-only repair
input. -/
theorem C10_amended_verify_only_frame_witness :
    ∃ fs1 evs1,
      create_all_directories ⟨[(["f2"], ⟨50, "XX"⟩)], []⟩ [["d"]] =
        Except.ok (fs1, evs1) ∧
      fs1.files = [(["f2"], ⟨50, "XX"⟩)] ∧
      (∀ e ∈ evs1, ∃ d, e = Event.mkdir d) ∧
      ([Event.mkdir ["d"], Event.reportFaulty [["f2"]], Event.deleteFile ["f2"]] :
          List Event) = evs1 ++
        Event.reportFaulty
          (verify (fun _ => "D2") fs1.localDigest (fun _ => 50) fs1.localSize
            [["f2"]]) ::
        (if (!(verify (fun _ => "D2") fs1.localDigest (fun _ => 50) fs1.localSize
              [["f2"]]).isEmpty) && (true || true)
         then (verify (fun _ => "D2") fs1.localDigest (fun _ => 50) fs1.localSize
            [["f2"]]).map Event.deleteFile
         else []) ∧
      (false : Bool) = false ∧ ([] : List RelPath) = [] ∧ ([] : List RelPath) = [] ∧
      (∀ f, Event.pullAttempt f ∉
        ([Event.mkdir ["d"], Event.reportFaulty [["f2"]], Event.deleteFile ["f2"]] :
          List Event)) ∧
      ([["d"]] : List RelPath) = fs1.dirs ∧
      ([] : List (RelPath × FileData)) =
        (if (!(verify (fun _ => "D2") fs1.localDigest (fun _ => 50) fs1.localSize
              [["f2"]]).isEmpty) && (true || true)
         then [(["f2"], (⟨50, "XX"⟩ : FileData))].filter (fun pr => decide
           (pr.1 ∉ verify (fun _ => "D2") fs1.localDigest (fun _ => 50) fs1.localSize
              [["f2"]]))
         else [(["f2"], ⟨50, "XX"⟩)]) := by
  have h := C10_amended_verify_only_frame ⟨false, true, false, true⟩
    ⟨fun _ => "D2", fun _ => 50, fun _ => some ⟨50, "D2"⟩, true, true⟩
    ⟨[(["f2"], ⟨50, "XX"⟩)], []⟩ [] [["f2"]] [["d"]]
    ⟨[Event.mkdir ["d"], Event.reportFaulty [["f2"]], Event.deleteFile ["f2"]],
      ⟨[], [["d"]]⟩, [], false, [], [], ⟨[], [["d"]]⟩⟩
    rfl (by decide)
  exact h

end BackupPhone
